import Mathlib

/-!
# awscloudwatchreceiver: configuration validation

A shallow embedding of `receiver/awscloudwatchreceiver/config.go` and of the library
functions it calls (`net/url.ParseRequestURI`, `go.uber.org/multierr.Append`, and the two
methods of `confmap.Conf` taken as parameters), followed by theorems about
`Config.Validate` and `Config.Unmarshal`.

Conventions of the embedding
* a Go `string` is a Lean `String`; where Go indexes a string byte by byte
  (inside `net/url`) the model works on the UTF-8 bytes of the string, as a `List Nat`;
* a Go `int` and a `time.Duration` (an `int64` count of nanoseconds) are `Int`; the code
  only compares them with constants, so no arithmetic can overflow;
* a nilable pointer `*T` is `Option T`, `nil` being `none`;
* a Go `error` result is `Option Error`, `nil` being `none`;
* a `map[string]StreamConfig` is an association list; the code only takes its `len`.
-/

namespace awscloudwatchreceiver

/-! ## Strings as bytes -/

/-- UTF-8 encoding of one code point, the bytes Go stores for it in a `string`. -/
def utf8Bytes (c : Nat) : List Nat :=
  if c < 0x80 then [c]
  else if c < 0x800 then [0xC0 + c / 0x40, 0x80 + c % 0x40]
  else if c < 0x10000 then [0xE0 + c / 0x1000, 0x80 + c / 0x40 % 0x40, 0x80 + c % 0x40]
  else [0xF0 + c / 0x40000, 0x80 + c / 0x1000 % 0x40, 0x80 + c / 0x40 % 0x40, 0x80 + c % 0x40]

/-- The bytes of a Go string. -/
def bytes (s : String) : List Nat :=
  s.data.flatMap fun c => utf8Bytes c.toNat

/-! ## The `strings` helpers used by `net/url`, on byte lists -/

namespace strings

/-- Go `strings.HasPrefix(s, p)`. -/
def HasPrefix (s p : List Nat) : Bool := p.isPrefixOf s

/-- Go `strings.HasSuffix(s, p)`. -/
def HasSuffix (s p : List Nat) : Bool := p.isSuffixOf s

/-- Go `strings.Count(s, string(b))` for a one-byte separator. -/
def CountByte (s : List Nat) (b : Nat) : Nat := s.count b

/-- Go `strings.Index(s, sub)`: the offset of the first occurrence of `sub`, `none` for -1. -/
def Index : List Nat → List Nat → Option Nat
  | [], sub => if sub.isEmpty then some 0 else none
  | c :: cs, sub =>
    if sub.isPrefixOf (c :: cs) then some 0
    else (Index cs sub).map (· + 1)

/-- Go `strings.LastIndex(s, string(b))` for a one-byte separator, `none` for -1. -/
def LastIndexByte : List Nat → Nat → Option Nat
  | [], _ => none
  | c :: cs, b =>
    match LastIndexByte cs b with
    | some i => some (i + 1)
    | none => if c = b then some 0 else none

/-- Go `strings.Contains(s, string(b))` for a one-byte separator. -/
def ContainsByte (s : List Nat) (b : Nat) : Bool := s.contains b

/-- Go `strings.Cut(s, string(b))` for a one-byte separator: `(before, after, found)`. -/
def Cut : List Nat → Nat → List Nat × List Nat × Bool
  | [], _ => ([], [], false)
  | c :: cs, b =>
    if c = b then ([], cs, true)
    else
      let r := Cut cs b
      (c :: r.1, r.2.1, r.2.2)

end strings

/-! ## `net/url`: `ParseRequestURI`

`Validate` calls `url.ParseRequestURI` of the Go standard library and keeps only its error.
The definitions below follow `net/url/url.go` function by function (`parse` with
`viaRequest = true` and what it calls); they compute the error result and leave out the
`*URL` value, which `Validate` discards. -/

namespace url

/-- The error values `net/url` creates while parsing. -/
inductive ParseErr where
  /-- The value errors.New("net/url: invalid control character in URL"). -/
  | invalidControlCharacter
  /-- The value errors.New("empty url"). -/
  | emptyURL
  /-- The value errors.New("missing protocol scheme"). -/
  | missingProtocolScheme
  /-- The value errors.New("invalid URI for request"). -/
  | invalidURIForRequest
  /-- The value errors.New("first path segment in URL cannot contain colon"). -/
  | firstPathSegmentColon
  /-- The value errors.New("missing ']' in host"). -/
  | missingBracketInHost
  /-- The value fmt.Errorf("invalid port %q after host", colonPort). -/
  | invalidPort (colonPort : List Nat)
  /-- The value errors.New("net/url: invalid userinfo"). -/
  | invalidUserinfo
  /-- The value EscapeError(s). -/
  | EscapeError (s : List Nat)
  /-- The value InvalidHostError(s). -/
  | InvalidHostError (s : List Nat)
  deriving DecidableEq, Repr

/-- The type `url.Error`: `&Error{Op, URL, Err}`. -/
structure Error where
  Op : String
  URL : String
  Err : ParseErr
  deriving DecidableEq, Repr

/-- The type `encoding`: which part of a URL is being escaped or unescaped. -/
inductive encoding where
  | encodePath
  | encodePathSegment
  | encodeHost
  | encodeZone
  | encodeUserPassword
  | encodeQueryComponent
  | encodeFragment
  deriving DecidableEq, Repr

/-- Byte value of an ASCII character. -/
abbrev b (c : Char) : Nat := c.toNat

/-- Go `stringContainsCTLByte`: some byte is below the space or is 0x7f. -/
def stringContainsCTLByte (s : List Nat) : Bool :=
  s.any fun c => c < b ' ' || c == 0x7f

/-- Go `ishex`. -/
def ishex (c : Nat) : Bool :=
  (b '0' ≤ c && c ≤ b '9') || (b 'a' ≤ c && c ≤ b 'f') || (b 'A' ≤ c && c ≤ b 'F')

/-- Go `unhex`. -/
def unhex (c : Nat) : Nat :=
  if b '0' ≤ c ∧ c ≤ b '9' then c - b '0'
  else if b 'a' ≤ c ∧ c ≤ b 'f' then c - b 'a' + 10
  else if b 'A' ≤ c ∧ c ≤ b 'F' then c - b 'A' + 10
  else 0

/-- Go `shouldEscape(c, mode)`. -/
def shouldEscape (c : Nat) (mode : encoding) : Bool :=
  if (b 'a' ≤ c && c ≤ b 'z') || (b 'A' ≤ c && c ≤ b 'Z') || (b '0' ≤ c && c ≤ b '9') then false
  else if (mode == .encodeHost || mode == .encodeZone) &&
      (bytes "!$&\x27()*+,;=:[]<>\"").contains c then false
  else if (bytes "-_.~").contains c then false
  else if (bytes "$&+,/:;=?@").contains c &&
      (mode == .encodePath || mode == .encodePathSegment || mode == .encodeUserPassword
        || mode == .encodeQueryComponent || mode == .encodeFragment) then
    match mode with
    | .encodePath => c == b '?'
    | .encodePathSegment => c == b '/' || c == b ';' || c == b ',' || c == b '?'
    | .encodeUserPassword => c == b '@' || c == b '/' || c == b '?' || c == b ':'
    | .encodeQueryComponent => true
    | _ => false
  else if mode == .encodeFragment && (bytes "!()*").contains c then false
  else true

/-- The checking pass of `unescape(s, mode)`: the error it returns, `none` for `nil`.
The decoded string is not modelled, no caller here reads it. -/
def unescape (mode : encoding) : List Nat → Option ParseErr
  | [] => none
  | c :: rest =>
    if c = b '%' then
      match rest with
      | h1 :: h2 :: rest2 =>
        if !ishex h1 || !ishex h2 then some (.EscapeError [c, h1, h2])
        else if mode == .encodeHost && unhex h1 < 8 && [c, h1, h2] != bytes "%25" then
          some (.EscapeError [c, h1, h2])
        else if mode == .encodeZone && [c, h1, h2] != bytes "%25"
            && unhex h1 * 16 + unhex h2 != b ' '
            && shouldEscape (unhex h1 * 16 + unhex h2) .encodeHost then
          some (.EscapeError [c, h1, h2])
        else unescape mode rest2
      | _ => some (.EscapeError (c :: rest))
    else if c = b '+' then unescape mode rest
    else if (mode == .encodeHost || mode == .encodeZone) && c < 0x80
        && shouldEscape c .encodeHost then
      some (.InvalidHostError [c])
    else unescape mode rest

/-- The loop of `getScheme`, at offset `i` with `rest = rawURL[i:]`. -/
def getSchemeLoop (rawURL : List Nat) : Nat → List Nat → Except ParseErr (List Nat × List Nat)
  | _, [] => .ok ([], rawURL)
  | i, c :: cs =>
    if (b 'a' ≤ c && c ≤ b 'z') || (b 'A' ≤ c && c ≤ b 'Z') then
      getSchemeLoop rawURL (i + 1) cs
    else if (b '0' ≤ c && c ≤ b '9') || c == b '+' || c == b '-' || c == b '.' then
      if i = 0 then .ok ([], rawURL) else getSchemeLoop rawURL (i + 1) cs
    else if c == b ':' then
      if i = 0 then .error .missingProtocolScheme else .ok (rawURL.take i, cs)
    else .ok ([], rawURL)

/-- Go `getScheme(rawURL)`: `(scheme, path)` or an error. -/
def getScheme (rawURL : List Nat) : Except ParseErr (List Nat × List Nat) :=
  getSchemeLoop rawURL 0 rawURL

/-- Go `validOptionalPort(port)`. -/
def validOptionalPort (port : List Nat) : Bool :=
  match port with
  | [] => true
  | c :: ds => c == b ':' && ds.all fun d => b '0' ≤ d && d ≤ b '9'

/-- Go `validUserinfo(s)`. The Go loop ranges over runes; a rune outside ASCII is refused,
and so is each of its bytes here. -/
def validUserinfo (s : List Nat) : Bool :=
  s.all fun r =>
    (b 'A' ≤ r && r ≤ b 'Z') || (b 'a' ≤ r && r ≤ b 'z') || (b '0' ≤ r && r ≤ b '9')
      || (bytes "-._:~!$&\x27()*+,;=%@").contains r

/-- Go `parseHost(host)`: the error it returns, `none` for `nil`. -/
def parseHost (host : List Nat) : Option ParseErr :=
  if strings.HasPrefix host (bytes "[") then
    match strings.LastIndexByte host (b ']') with
    | none => some .missingBracketInHost
    | some i =>
      let colonPort := host.drop (i + 1)
      if !validOptionalPort colonPort then some (.invalidPort colonPort)
      else
        match strings.Index (host.take i) (bytes "%25") with
        | some zone =>
          match unescape .encodeHost (host.take zone) with
          | some e => some e
          | none =>
            match unescape .encodeZone ((host.take i).drop zone) with
            | some e => some e
            | none => unescape .encodeHost (host.drop i)
        | none => unescape .encodeHost host
  else
    match strings.LastIndexByte host (b ':') with
    | some i =>
      let colonPort := host.drop i
      if !validOptionalPort colonPort then some (.invalidPort colonPort)
      else unescape .encodeHost host
    | none => unescape .encodeHost host

/-- Go `parseAuthority(authority)`: the error it returns, `none` for `nil`. -/
def parseAuthority (authority : List Nat) : Option ParseErr :=
  match strings.LastIndexByte authority (b '@') with
  | none => parseHost authority
  | some i =>
    match parseHost (authority.drop (i + 1)) with
    | some e => some e
    | none =>
      let userinfo := authority.take i
      if !validUserinfo userinfo then some .invalidUserinfo
      else if !strings.ContainsByte userinfo (b ':') then
        unescape .encodeUserPassword userinfo
      else
        let r := strings.Cut userinfo (b ':')
        match unescape .encodeUserPassword r.1 with
        | some e => some e
        | none => unescape .encodeUserPassword r.2.1

/-- Go `parse(rawURL, viaRequest)`: the error it returns, `none` for `nil`.
The `*URL` it builds is not modelled: `Validate` discards it. -/
def parse (rawURL : List Nat) (viaRequest : Bool) : Option ParseErr :=
  if stringContainsCTLByte rawURL then some .invalidControlCharacter
  else if rawURL.isEmpty && viaRequest then some .emptyURL
  else if rawURL = bytes "*" then none
  else
    match getScheme rawURL with
    | .error e => some e
    | .ok (scheme, rest0) =>
      let rest :=
        if strings.HasSuffix rest0 (bytes "?") && strings.CountByte rest0 (b '?') == 1 then
          rest0.take (rest0.length - 1)
        else (strings.Cut rest0 (b '?')).1
      if !strings.HasPrefix rest (bytes "/") && !scheme.isEmpty then none
      else if !strings.HasPrefix rest (bytes "/") && viaRequest then
        some .invalidURIForRequest
      else if !strings.HasPrefix rest (bytes "/")
          && strings.ContainsByte (strings.Cut rest (b '/')).1 (b ':') then
        some .firstPathSegmentColon
      else if (!scheme.isEmpty || (!viaRequest && !strings.HasPrefix rest (bytes "///")))
          && strings.HasPrefix rest (bytes "//") then
        let authority0 := rest.drop 2
        let authority := (strings.Cut authority0 (b '/')).1
        let rest1 :=
          if (strings.Cut authority0 (b '/')).2.2 then b '/' :: (strings.Cut authority0 (b '/')).2.1
          else []
        match parseAuthority authority with
        | some e => some e
        | none => unescape .encodePath rest1
      else unescape .encodePath rest

/-- Go `url.ParseRequestURI(rawURL)`: the error it returns, `none` for `nil`. -/
def ParseRequestURI (rawURL : String) : Option Error :=
  match parse (bytes rawURL) true with
  | some err => some { Op := "parse", URL := rawURL, Err := err }
  | none => none

/-- The string starts with a scheme: `getScheme` splits a non-empty scheme off it. -/
def hasScheme (rawURL : String) : Bool :=
  match getScheme (bytes rawURL) with
  | .ok (scheme, _) => !scheme.isEmpty
  | .error _ => false

/-- The string is an absolute path: it starts with a slash. -/
def isAbsolutePath (rawURL : String) : Bool :=
  strings.HasPrefix (bytes rawURL) (bytes "/")

end url

/-! ## `time` and `multierr` -/

namespace time

/-- Go `time.Nanosecond`: a `Duration` counts nanoseconds. -/
def Nanosecond : Int := 1
/-- Go `time.Microsecond`. -/
def Microsecond : Int := 1000 * Nanosecond
/-- Go `time.Millisecond`. -/
def Millisecond : Int := 1000 * Microsecond
/-- Go `time.Second`. -/
def Second : Int := 1000 * Millisecond
/-- Go `time.Minute`. -/
def Minute : Int := 60 * Second

end time

/-- The `error` values `Config.Validate` can return. -/
inductive Error where
  /-- The variable `errNoRegion`. -/
  | errNoRegion
  /-- The variable `errNoLogsConfigured`. -/
  | errNoLogsConfigured
  /-- The variable `errInvalidEventLimit`. -/
  | errInvalidEventLimit
  /-- The variable `errInvalidPollInterval`. -/
  | errInvalidPollInterval
  /-- The variable `errInvalidAutodiscoverLimit`. -/
  | errInvalidAutodiscoverLimit
  /-- The variable `errAutodiscoverAndNamedConfigured`. -/
  | errAutodiscoverAndNamedConfigured
  /-- The value fmt.Errorf("unable to parse URI for imds_endpoint: %w", err): it wraps `err`. -/
  | parseURIError (err : url.Error)
  /-- The value `multierr` builds from two non-nil errors. -/
  | combined (left right : Error)
  deriving DecidableEq, Repr

namespace multierr

/-- Go `multierr.Append(left, right)`: a nil side is dropped, two errors are combined. -/
def Append : Option Error → Option Error → Option Error
  | none, right => right
  | some left, none => some left
  | some left, some right => some (.combined left right)

end multierr

/-! ## `config.go` -/

/-- The variable `defaultPollInterval`. -/
def defaultPollInterval : Int := time.Minute
/-- The variable `defaultEventLimit`. -/
def defaultEventLimit : Int := 1000
/-- The variable `defaultLogGroupLimit`. -/
def defaultLogGroupLimit : Int := 50

/-- StreamConfig represents the configuration for the log stream filtering. -/
structure StreamConfig where
  Prefixes : List (Option String)
  Names : List (Option String)
  deriving DecidableEq, Repr

/-- AutodiscoverConfig is the configuration for the autodiscovery functionality of log groups. -/
structure AutodiscoverConfig where
  Prefix : String
  Limit : Int
  IncludeLinkedAccounts : Bool
  Streams : StreamConfig
  deriving DecidableEq, Repr

/-- GroupConfig is the configuration for log group collection. -/
structure GroupConfig where
  AutodiscoverConfig : Option AutodiscoverConfig
  NamedConfigs : List (String × StreamConfig)
  deriving DecidableEq, Repr

/-- LogsConfig is the configuration for the logs portion of this receiver. -/
structure LogsConfig where
  PollInterval : Int
  MaxEventsPerRequest : Int
  Groups : GroupConfig
  deriving DecidableEq, Repr

/-- Config is the overall config structure for the awscloudwatchreceiver. -/
structure Config where
  Region : String
  Profile : String
  IMDSEndpoint : String
  Logs : Option LogsConfig
  deriving DecidableEq, Repr

/-- Go `validateAutodiscover(cfg)`, config.go lines 140 to 152: the test of
`IncludeLinkedAccounts` is commented out in the source. -/
def validateAutodiscover (cfg : AutodiscoverConfig) : Option Error :=
  if cfg.Limit ≤ 0 then some .errInvalidAutodiscoverLimit
  else none

/-- Go `(c *GroupConfig) validate()`, config.go lines 128 to 138. -/
def GroupConfig.validate (c : GroupConfig) : Option Error :=
  if c.AutodiscoverConfig ≠ none ∧ c.NamedConfigs.length > 0 then
    some .errAutodiscoverAndNamedConfigured
  else
    match c.AutodiscoverConfig with
    | some cfg => validateAutodiscover cfg
    | none => none

/-- Go `(c *Config) validateLogsConfig()`, config.go lines 113 to 126. -/
def Config.validateLogsConfig (c : Config) : Option Error :=
  match c.Logs with
  | none => some .errNoLogsConfigured
  | some logs =>
    if logs.MaxEventsPerRequest ≤ 0 then some .errInvalidEventLimit
    else if logs.PollInterval < time.Second then some .errInvalidPollInterval
    else logs.Groups.validate

/-- Go `(c *Config) Validate()`, config.go lines 79 to 94: validates all portions of the
relevant config. -/
def Config.Validate (c : Config) : Option Error :=
  if c.Region = "" then some .errNoRegion
  else
    match (if c.IMDSEndpoint ≠ "" then url.ParseRequestURI c.IMDSEndpoint else none) with
    | some err => some (.parseURIError err)
    | none => multierr.Append none c.validateLogsConfig

/-! ## `confmap` and `Unmarshal`

`*confmap.Conf` is a type of the collector library. `Config.Unmarshal` uses two of its
methods, which the embedding takes as parameters: the decoding of the raw input into `*c`
and the key-presence test. -/

namespace confmap

/-- An error of the decoder, such as a type mismatch or an unknown key. -/
structure DecodeError where
  msg : String
  deriving DecidableEq, Repr

/-- What `Config.Unmarshal` uses of a `*confmap.Conf`. -/
structure Conf where
  /-- Go `componentParser.Unmarshal(c, confmap.WithErrorUnused())`: the value of `*c` after
  the call, and the error it returns. -/
  Unmarshal : Config → Config × Option DecodeError
  /-- Go `componentParser.IsSet(key)`. -/
  IsSet : String → Bool

end confmap

/-- The `error` values `Config.Unmarshal` can return. -/
inductive UnmarshalError where
  /-- The value errors.New(""). -/
  | emptyError
  /-- An error of `componentParser.Unmarshal`, returned unchanged. -/
  | decodeError (err : confmap.DecodeError)
  deriving DecidableEq, Repr

/-- What a call of `Config.Unmarshal` does: it returns an `error` and leaves a value in
`*c`, or it panics on a nil pointer. -/
inductive UnmarshalResult where
  | returned (c : Config) (err : Option UnmarshalError)
  | nilDereference
  deriving DecidableEq, Repr

/-- The normalization step of `Config.Unmarshal`, config.go lines 107 to 109: when
`logs::groups::named` is set and `logs::groups::autodiscover` is not, the assignment
`c.Logs.Groups.AutodiscoverConfig = nil`. The result `none` is the panic of that assignment
when `c.Logs` is nil. -/
def Config.normalize (c : Config) (componentParser : confmap.Conf) : Option Config :=
  if componentParser.IsSet "logs::groups::named"
      && !componentParser.IsSet "logs::groups::autodiscover" then
    match c.Logs with
    | some logs =>
      some { c with
        Logs := some { logs with Groups := { logs.Groups with AutodiscoverConfig := none } } }
    | none => none
  else some c

/-- Go `(c *Config) Unmarshal(componentParser)`, config.go lines 98 to 111: a custom
unmarshaller that ensures that autodiscover is nil if autodiscover is not specified. -/
def Config.Unmarshal (c : Config) (componentParser : Option confmap.Conf) : UnmarshalResult :=
  match componentParser with
  | none => .returned c (some .emptyError)
  | some parser =>
    match parser.Unmarshal c with
    | (decoded, some err) => .returned decoded (some (.decodeError err))
    | (decoded, none) =>
      match decoded.normalize parser with
      | some normalized => .returned normalized none
      | none => .nilDereference

/-! ## The validator as the specification words it -/

/-- The seven checks of the validator, in the order the specification lists them: every
violated check contributes its error, a check on a field of an absent `Logs` is not
violated. -/
def violations (c : Config) : List Error :=
  (if c.Region = "" then [Error.errNoRegion] else [])
  ++ (if c.IMDSEndpoint ≠ "" then
        match url.ParseRequestURI c.IMDSEndpoint with
        | some err => [Error.parseURIError err]
        | none => []
      else [])
  ++ (match c.Logs with
      | none => [Error.errNoLogsConfigured]
      | some _ => [])
  ++ (match c.Logs with
      | some logs => if logs.MaxEventsPerRequest ≤ 0 then [Error.errInvalidEventLimit] else []
      | none => [])
  ++ (match c.Logs with
      | some logs => if logs.PollInterval < time.Second then [Error.errInvalidPollInterval] else []
      | none => [])
  ++ (match c.Logs with
      | some logs =>
        if logs.Groups.AutodiscoverConfig ≠ none ∧ logs.Groups.NamedConfigs ≠ [] then
          [Error.errAutodiscoverAndNamedConfigured]
        else []
      | none => [])
  ++ (match c.Logs with
      | some logs =>
        match logs.Groups.AutodiscoverConfig with
        | some cfg => if cfg.Limit ≤ 0 then [Error.errInvalidAutodiscoverLimit] else []
        | none => []
      | none => [])

/-- The reference validator: the error of the first violated check, `none` when no check
is violated. -/
def firstViolation (c : Config) : Option Error :=
  (violations c).head?

/-- The endpoint check passes: `IMDSEndpoint` is empty or `url.ParseRequestURI` accepts it. -/
def endpointOK (c : Config) : Prop :=
  c.IMDSEndpoint = "" ∨ url.ParseRequestURI c.IMDSEndpoint = none

instance (c : Config) : Decidable (endpointOK c) := by
  unfold endpointOK; infer_instance

/-- The two group checks pass: not both modes at once, and a positive limit when
`AutodiscoverConfig` is present. -/
def groupsOK (g : GroupConfig) : Prop :=
  ¬ (g.AutodiscoverConfig ≠ none ∧ g.NamedConfigs ≠ [])
  ∧ match g.AutodiscoverConfig with
    | some cfg => 0 < cfg.Limit
    | none => True

instance (g : GroupConfig) : Decidable (groupsOK g) := by
  unfold groupsOK
  cases g.AutodiscoverConfig <;> infer_instance

/-! ## Configurations used as concrete inputs -/

/-- A stream filter that matches every stream. -/
def allStreams : StreamConfig := { Prefixes := [], Names := [] }

/-- An autodiscovery block with the given limit. -/
def autodiscover (limit : Int) : AutodiscoverConfig :=
  { Prefix := "/aws/eks/"
    Limit := limit
    IncludeLinkedAccounts := true
    Streams := { Prefixes := [some "kube-api"], Names := [none] } }

/-- A configuration built from the fields the validator reads. -/
def mkConfig (region endpoint : String) (logs : Option LogsConfig) : Config :=
  { Region := region
    Profile := "default"
    IMDSEndpoint := endpoint
    Logs := logs }

/-- A logs block. -/
def mkLogs (poll events : Int) (auto : Option AutodiscoverConfig)
    (named : List (String × StreamConfig)) : LogsConfig :=
  { PollInterval := poll
    MaxEventsPerRequest := events
    Groups := { AutodiscoverConfig := auto, NamedConfigs := named } }

/-- A parser whose decoding leaves `decoded` in the configuration and returns `err`, and
for which exactly the keys of `keys` are set. -/
def mkConf (decoded : Config) (err : Option confmap.DecodeError) (keys : List String) :
    confmap.Conf :=
  { Unmarshal := fun _ => (decoded, err)
    IsSet := fun key => keys.contains key }

/-- The fields of a `Config` that `Validate` reads: `Region`, `IMDSEndpoint` and, when
`Logs` is present, `PollInterval`, `MaxEventsPerRequest`, the `Limit` of a present
`AutodiscoverConfig`, and whether `NamedConfigs` is empty. -/
def validatedFields (c : Config) : String × String × Option (Int × Int × Option Int × Bool) :=
  (c.Region, c.IMDSEndpoint,
    c.Logs.map fun logs =>
      (logs.PollInterval, logs.MaxEventsPerRequest,
        logs.Groups.AutodiscoverConfig.map fun cfg => cfg.Limit,
        logs.Groups.NamedConfigs.isEmpty))

/-! ## Lemmas on the steps of `Validate` -/

theorem Append_none (e : Option Error) : multierr.Append none e = e := by
  cases e <;> rfl

theorem Validate_of_region_endpoint (c : Config) (hr : c.Region ≠ "") (he : endpointOK c) :
    c.Validate = c.validateLogsConfig := by
  unfold Config.Validate
  rw [if_neg hr]
  rcases he with he | he
  · simp [he, Append_none]
  · simp [he, Append_none]

theorem Validate_of_logs (c : Config) (logs : LogsConfig) (hr : c.Region ≠ "")
    (he : endpointOK c) (hl : c.Logs = some logs) (hm : 0 < logs.MaxEventsPerRequest)
    (hp : time.Second ≤ logs.PollInterval) :
    c.Validate = logs.Groups.validate := by
  rw [Validate_of_region_endpoint c hr he]
  unfold Config.validateLogsConfig
  rw [hl]
  simp only
  rw [if_neg (by omega), if_neg (by omega)]

theorem validateLogsConfig_of_Validate (c : Config) (h : c.Validate = none) :
    c.validateLogsConfig = none := by
  unfold Config.Validate at h
  split_ifs at h
  all_goals
    split at h
    · simp at h
    · rw [Append_none] at h; exact h

theorem validate_of_groupsOK (g : GroupConfig) (h : groupsOK g) : g.validate = none := by
  obtain ⟨auto, named⟩ := g
  obtain ⟨h1, h2⟩ := h
  rcases auto with _ | cfg
  · simp [GroupConfig.validate]
  · have hl : 0 < cfg.Limit := h2
    have hn : named = [] := by simpa using h1
    have hl2 : ¬ cfg.Limit ≤ 0 := by omega
    simp [GroupConfig.validate, validateAutodiscover, hn, hl2]

theorem bytes_slash : bytes "/" = [47] := by decide

theorem HasPrefix_slash_cons (c : Nat) (cs : List Nat) :
    strings.HasPrefix (c :: cs) [47] = true ↔ c = 47 := by
  unfold strings.HasPrefix
  rw [List.isPrefixOf]
  simp
  exact eq_comm

theorem HasPrefix_slash_take (n : Nat) (l : List Nat)
    (h : strings.HasPrefix (l.take n) [47] = true) : strings.HasPrefix l [47] = true := by
  cases l with
  | nil => simp [strings.HasPrefix] at h
  | cons c cs =>
    cases n with
    | zero => simp [strings.HasPrefix] at h
    | succ n =>
      rw [List.take_succ_cons, HasPrefix_slash_cons] at h
      rw [HasPrefix_slash_cons]; exact h

theorem HasPrefix_slash_Cut (l : List Nat) (sep : Nat)
    (h : strings.HasPrefix (strings.Cut l sep).1 [47] = true) :
    strings.HasPrefix l [47] = true := by
  cases l with
  | nil => simp [strings.Cut, strings.HasPrefix] at h
  | cons c cs =>
    unfold strings.Cut at h
    split_ifs at h with hc
    · simp [strings.HasPrefix] at h
    · rw [HasPrefix_slash_cons] at h
      rw [HasPrefix_slash_cons]; exact h

theorem getSchemeLoop_no_scheme (rawURL : List Nat) :
    ∀ (rest : List Nat) (i : Nat) (p : List Nat), rest = rawURL.drop i →
      url.getSchemeLoop rawURL i rest = .ok ([], p) → p = rawURL := by
  intro rest
  induction rest with
  | nil =>
    intro i p _ h
    simp [url.getSchemeLoop] at h
    exact h.symm
  | cons c cs ih =>
    intro i p hd h
    have hd2 : cs = rawURL.drop (i + 1) := by
      have := congrArg List.tail hd
      simpa using this
    unfold url.getSchemeLoop at h
    split_ifs at h with h1 h2 h3 h4 h5
    · exact ih (i + 1) p hd2 h
    · simp at h; exact h.symm
    · exact ih (i + 1) p hd2 h
    · simp at h
      exfalso
      rcases h.1 with h0 | h0
      · exact h5 h0
      · rw [h0] at hd; simp at hd
    · simp at h; exact h.symm

theorem parse_viaRequest_accepts (rawURL : List Nat) (h : url.parse rawURL true = none) :
    rawURL = bytes "*"
    ∨ (∃ scheme rest, url.getScheme rawURL = .ok (scheme, rest) ∧ scheme ≠ [])
    ∨ strings.HasPrefix rawURL (bytes "/") = true := by
  unfold url.parse at h
  split_ifs at h with h1 h2 h3
  · exact Or.inl h3
  · split at h
    · simp at h
    · rename_i scheme rest0 hs
      by_cases hne : scheme = []
      · subst hne
        right; right
        have hp : rest0 = rawURL := getSchemeLoop_no_scheme rawURL rawURL 0 rest0 rfl hs
        subst hp
        rw [bytes_slash] at h ⊢
        simp only [List.isEmpty_nil, Bool.not_true, Bool.and_false, Bool.false_eq_true,
          if_false, Bool.and_true, Bool.false_or, Bool.false_and] at h
        split_ifs at h with h4 h5 h6 h7 h8
        · exact HasPrefix_slash_take _ _ (by simpa using h5)
        · exact HasPrefix_slash_Cut _ _ (by simpa using h7)
      · exact Or.inr (Or.inl ⟨scheme, rest0, hs, hne⟩)

theorem normalize_of_rule (c : Config) (parser : confmap.Conf) (logs : LogsConfig)
    (hl : c.Logs = some logs) (hn : parser.IsSet "logs::groups::named" = true)
    (ha : parser.IsSet "logs::groups::autodiscover" = false) :
    c.normalize parser
      = some { c with
          Logs := some { logs with Groups := { logs.Groups with AutodiscoverConfig := none } } } := by
  simp [Config.normalize, hn, ha, hl]

theorem normalize_of_no_rule (c : Config) (parser : confmap.Conf)
    (h : parser.IsSet "logs::groups::autodiscover" = true
      ∨ parser.IsSet "logs::groups::named" = false) :
    c.normalize parser = some c := by
  rcases h with h | h <;> simp [Config.normalize, h]

theorem Unmarshal_of_decoded (c decoded : Config) (parser : confmap.Conf)
    (hd : parser.Unmarshal c = (decoded, none)) :
    c.Unmarshal (some parser)
      = match decoded.normalize parser with
        | some normalized => UnmarshalResult.returned normalized none
        | none => UnmarshalResult.nilDereference := by
  simp [Config.Unmarshal, hd]

/-! ## Theorems -/

/-- C1: `Config.Validate` equals the reference validator, the error of the first violated
check among the seven taken in order, and it returns `nil` exactly when no check is
violated. -/
theorem Validate_eq_firstViolation (c : Config) :
    c.Validate = firstViolation c ∧ (c.Validate = none ↔ violations c = []) := by
  obtain ⟨region, profile, endpoint, logs⟩ := c
  by_cases hr : region = ""
  · simp [Config.Validate, firstViolation, violations, hr]
  · by_cases he : endpoint = "" <;> cases hu : url.ParseRequestURI endpoint <;>
      rcases logs with _ | ⟨poll, events, _ | cfg, _ | ⟨n, ns⟩⟩ <;>
      simp [Config.Validate, firstViolation, violations, hr, he, hu, Append_none,
        Config.validateLogsConfig, GroupConfig.validate, validateAutodiscover] <;>
      split_ifs <;> simp_all

/-- C2: a `Config` whose `Region` is empty is refused with `errNoRegion`, whatever its
other fields are. -/
theorem Validate_empty_region (c : Config) (h : c.Region = "") :
    c.Validate = some Error.errNoRegion := by
  simp [Config.Validate, h]

/-- Witness of C2: empty region together with an unparsable endpoint and no logs. -/
theorem Validate_empty_region_witness :
    (mkConfig "" "not a uri" none).Validate = some Error.errNoRegion :=
  Validate_empty_region (mkConfig "" "not a uri" none) rfl

/-- C3 as stated fails: with `Logs` absent, an empty `Region` is reported as `errNoRegion`
and an unparsable `IMDSEndpoint` as the wrapped parse error, not as
`errNoLogsConfigured`. -/
theorem Validate_nil_logs_counterexample :
    (mkConfig "" "" none).Logs = none
    ∧ (mkConfig "" "" none).Validate = some Error.errNoRegion
    ∧ (mkConfig "us-east-1" "not a uri" none).Logs = none
    ∧ (mkConfig "us-east-1" "not a uri" none).Validate
        = some (Error.parseURIError
            { Op := "parse", URL := "not a uri", Err := url.ParseErr.invalidURIForRequest })
    ∧ ¬ (∀ c : Config, c.Logs = none → c.Validate = some Error.errNoLogsConfigured) := by
  refine ⟨rfl, by decide, rfl, by decide, fun h => ?_⟩
  have h1 := h (mkConfig "" "" none) rfl
  revert h1
  decide

/-- C3, amended: a `Config` whose `Logs` is absent is never accepted; its logs validation
reports `errNoLogsConfigured`, and `Validate` returns `errNoLogsConfigured` exactly when
the two earlier checks pass (`Region` non-empty, `IMDSEndpoint` empty or parsable). -/
theorem Validate_nil_logs (c : Config) (h : c.Logs = none) :
    c.Validate ≠ none
    ∧ c.validateLogsConfig = some Error.errNoLogsConfigured
    ∧ (c.Validate = some Error.errNoLogsConfigured ↔ c.Region ≠ "" ∧ endpointOK c) := by
  obtain ⟨region, profile, endpoint, logs⟩ := c
  simp only at h
  subst h
  by_cases hr : region = "" <;> by_cases he : endpoint = "" <;>
    cases hu : url.ParseRequestURI endpoint <;>
    simp [Config.Validate, Config.validateLogsConfig, endpointOK, Append_none, hr, he, hu]

/-- Witness of C3, amended: a region, no endpoint, no logs. -/
theorem Validate_nil_logs_witness :
    (mkConfig "us-east-1" "" none).Validate ≠ none
    ∧ (mkConfig "us-east-1" "" none).validateLogsConfig = some Error.errNoLogsConfigured
    ∧ ((mkConfig "us-east-1" "" none).Validate = some Error.errNoLogsConfigured
        ↔ (mkConfig "us-east-1" "" none).Region ≠ "" ∧ endpointOK (mkConfig "us-east-1" "" none)) :=
  Validate_nil_logs (mkConfig "us-east-1" "" none) rfl

/-- C4 as stated fails: a `Config` with `AutodiscoverConfig` absent and `NamedConfigs`
empty, and nothing else wrong, is accepted. -/
theorem Validate_both_absent_counterexample :
    (mkLogs time.Minute 1000 none []).Groups.AutodiscoverConfig = none
    ∧ (mkLogs time.Minute 1000 none []).Groups.NamedConfigs = []
    ∧ (mkConfig "us-east-1" "" (some (mkLogs time.Minute 1000 none []))).Validate = none := by
  decide

/-- C4, amended: a `Config` that `Validate` accepts has `Logs` present and never has both
`AutodiscoverConfig` present and `NamedConfigs` non-empty: it is in autodiscovery mode, in
explicit mode, or has neither; and a `Config` that passes the first five checks with
`AutodiscoverConfig` absent is accepted, whether `NamedConfigs` is empty or not. -/
theorem Validate_accepted_group_modes :
    (∀ c : Config, c.Validate = none →
      ∃ logs, c.Logs = some logs
        ∧ ((logs.Groups.AutodiscoverConfig ≠ none ∧ logs.Groups.NamedConfigs = [])
          ∨ (logs.Groups.AutodiscoverConfig = none ∧ logs.Groups.NamedConfigs ≠ [])
          ∨ (logs.Groups.AutodiscoverConfig = none ∧ logs.Groups.NamedConfigs = [])))
    ∧ (∀ (c : Config) (logs : LogsConfig), c.Region ≠ "" → endpointOK c →
        c.Logs = some logs → 0 < logs.MaxEventsPerRequest →
        time.Second ≤ logs.PollInterval → logs.Groups.AutodiscoverConfig = none →
        c.Validate = none) := by
  constructor
  · intro c h
    have hv := validateLogsConfig_of_Validate c h
    obtain ⟨region, profile, endpoint, logs⟩ := c
    rcases logs with _ | ⟨poll, events, _ | cfg, _ | ⟨n, ns⟩⟩
    · simp [Config.validateLogsConfig] at hv
    · simp
    · simp
    · simp
    · exfalso
      simp only [Config.validateLogsConfig, GroupConfig.validate] at hv
      split_ifs at hv with h1 h2 h3
      simp at h3
  · intro c logs hr he hl hm hp ha
    rw [Validate_of_logs c logs hr he hl hm hp]
    simp [GroupConfig.validate, ha]

/-- Witness of C4, amended: an accepted autodiscovery configuration, and an accepted
configuration with neither autodiscovery nor named groups. -/
theorem Validate_accepted_group_modes_witness :
    (∃ logs, (mkConfig "us-east-1" "" (some (mkLogs time.Minute 1000 (some (autodiscover 50)) []))).Logs
        = some logs
        ∧ ((logs.Groups.AutodiscoverConfig ≠ none ∧ logs.Groups.NamedConfigs = [])
          ∨ (logs.Groups.AutodiscoverConfig = none ∧ logs.Groups.NamedConfigs ≠ [])
          ∨ (logs.Groups.AutodiscoverConfig = none ∧ logs.Groups.NamedConfigs = [])))
    ∧ (mkConfig "us-east-1" "" (some (mkLogs time.Minute 1000 none []))).Validate = none :=
  ⟨Validate_accepted_group_modes.1
      (mkConfig "us-east-1" "" (some (mkLogs time.Minute 1000 (some (autodiscover 50)) [])))
      (by decide),
    Validate_accepted_group_modes.2
      (mkConfig "us-east-1" "" (some (mkLogs time.Minute 1000 none [])))
      (mkLogs time.Minute 1000 none []) (by decide) (by decide) rfl (by decide) (by decide) rfl⟩

/-- C5: when the first five checks pass and both `AutodiscoverConfig` and a non-empty
`NamedConfigs` are present, `Validate` returns `errAutodiscoverAndNamedConfigured`,
whatever the autodiscovery limit is. -/
theorem Validate_autodiscover_and_named (c : Config) (logs : LogsConfig)
    (cfg : AutodiscoverConfig) (hr : c.Region ≠ "") (he : endpointOK c)
    (hl : c.Logs = some logs) (hm : 0 < logs.MaxEventsPerRequest)
    (hp : time.Second ≤ logs.PollInterval)
    (ha : logs.Groups.AutodiscoverConfig = some cfg) (hn : logs.Groups.NamedConfigs ≠ []) :
    c.Validate = some Error.errAutodiscoverAndNamedConfigured := by
  rw [Validate_of_logs c logs hr he hl hm hp]
  have hlen : 0 < logs.Groups.NamedConfigs.length := List.length_pos.mpr hn
  simp [GroupConfig.validate, ha, hlen]

/-- Witness of C5: autodiscovery with limit 0 next to one named group. -/
theorem Validate_autodiscover_and_named_witness :
    (mkConfig "us-east-1" "http://169.254.169.254"
      (some (mkLogs time.Second 1 (some (autodiscover 0)) [("group", allStreams)]))).Validate
      = some Error.errAutodiscoverAndNamedConfigured :=
  Validate_autodiscover_and_named
    (mkConfig "us-east-1" "http://169.254.169.254"
      (some (mkLogs time.Second 1 (some (autodiscover 0)) [("group", allStreams)])))
    (mkLogs time.Second 1 (some (autodiscover 0)) [("group", allStreams)])
    (autodiscover 0) (by decide) (by decide) rfl (by decide) (by decide) rfl (by decide)

/-- C6: when the region, endpoint and logs-present checks pass, a `MaxEventsPerRequest`
of zero or less is refused with `errInvalidEventLimit` whatever `PollInterval` and `Groups`
are, and a `MaxEventsPerRequest` of 1 is accepted when the rest of the `Config` is valid. -/
theorem Validate_event_limit :
    (∀ (c : Config) (logs : LogsConfig), c.Region ≠ "" → endpointOK c →
        c.Logs = some logs → logs.MaxEventsPerRequest ≤ 0 →
        c.Validate = some Error.errInvalidEventLimit)
    ∧ (∀ (c : Config) (logs : LogsConfig), c.Region ≠ "" → endpointOK c →
        c.Logs = some logs → logs.MaxEventsPerRequest = 1 →
        time.Second ≤ logs.PollInterval → groupsOK logs.Groups →
        c.Validate = none) := by
  constructor
  · intro c logs hr he hl hm
    rw [Validate_of_region_endpoint c hr he]
    simp [Config.validateLogsConfig, hl, hm]
  · intro c logs hr he hl hm hp hg
    rw [Validate_of_logs c logs hr he hl (by omega) hp]
    exact validate_of_groupsOK _ hg

/-- Witness of C6: limits 0 and -5 with a bad poll interval and conflicting groups are
refused for the event limit, and limit 1 is accepted. -/
theorem Validate_event_limit_witness :
    (mkConfig "us-east-1" ""
        (some (mkLogs 0 0 (some (autodiscover 0)) [("group", allStreams)]))).Validate
      = some Error.errInvalidEventLimit
    ∧ (mkConfig "us-east-1" "" (some (mkLogs 0 (-5) none []))).Validate
      = some Error.errInvalidEventLimit
    ∧ (mkConfig "us-east-1" ""
        (some (mkLogs time.Minute 1 none [("group", allStreams)]))).Validate = none :=
  ⟨Validate_event_limit.1 _ (mkLogs 0 0 (some (autodiscover 0)) [("group", allStreams)])
      (by decide) (by decide) rfl (by decide),
    Validate_event_limit.1 _ (mkLogs 0 (-5) none []) (by decide) (by decide) rfl (by decide),
    Validate_event_limit.2 _ (mkLogs time.Minute 1 none [("group", allStreams)])
      (by decide) (by decide) rfl rfl (by decide) (by decide)⟩

/-- C7: one second is 1,000,000,000 ns; when the region, endpoint, logs-present and
event-limit checks pass, a `PollInterval` below one second is refused with
`errInvalidPollInterval` whatever `Groups` is, and a `PollInterval` of exactly one second
is accepted when the rest of the `Config` is valid. -/
theorem Validate_poll_interval :
    time.Second = 1000000000
    ∧ (∀ (c : Config) (logs : LogsConfig), c.Region ≠ "" → endpointOK c →
        c.Logs = some logs → 0 < logs.MaxEventsPerRequest →
        logs.PollInterval < time.Second →
        c.Validate = some Error.errInvalidPollInterval)
    ∧ (∀ (c : Config) (logs : LogsConfig), c.Region ≠ "" → endpointOK c →
        c.Logs = some logs → 0 < logs.MaxEventsPerRequest →
        logs.PollInterval = time.Second → groupsOK logs.Groups →
        c.Validate = none) := by
  refine ⟨by decide, ?_, ?_⟩
  · intro c logs hr he hl hm hp
    rw [Validate_of_region_endpoint c hr he]
    have hm2 : ¬ logs.MaxEventsPerRequest ≤ 0 := by omega
    simp [Config.validateLogsConfig, hl, hm2, hp]
  · intro c logs hr he hl hm hp hg
    rw [Validate_of_logs c logs hr he hl hm (le_of_eq hp.symm)]
    exact validate_of_groupsOK _ hg

/-- Witness of C7: 999 ms, zero and a negative duration are refused, also with
conflicting groups; one second is accepted. -/
theorem Validate_poll_interval_witness :
    (mkConfig "us-east-1" ""
        (some (mkLogs 999000000 1000 (some (autodiscover 0)) [("group", allStreams)]))).Validate
      = some Error.errInvalidPollInterval
    ∧ (mkConfig "us-east-1" "" (some (mkLogs 0 1000 none []))).Validate
      = some Error.errInvalidPollInterval
    ∧ (mkConfig "us-east-1" "" (some (mkLogs (-1) 1000 none []))).Validate
      = some Error.errInvalidPollInterval
    ∧ (mkConfig "us-east-1" ""
        (some (mkLogs 1000000000 1000 (some (autodiscover 50)) []))).Validate = none :=
  ⟨Validate_poll_interval.2.1 _
      (mkLogs 999000000 1000 (some (autodiscover 0)) [("group", allStreams)])
      (by decide) (by decide) rfl (by decide) (by decide),
    Validate_poll_interval.2.1 _ (mkLogs 0 1000 none [])
      (by decide) (by decide) rfl (by decide) (by decide),
    Validate_poll_interval.2.1 _ (mkLogs (-1) 1000 none [])
      (by decide) (by decide) rfl (by decide) (by decide),
    Validate_poll_interval.2.2 _ (mkLogs 1000000000 1000 (some (autodiscover 50)) [])
      (by decide) (by decide) rfl (by decide) (by decide)
      (by decide)⟩

/-- C8: when the first five checks pass and `AutodiscoverConfig` is present with
`NamedConfigs` empty, `Validate` returns `errInvalidAutodiscoverLimit` for a limit of zero
or less and `nil` for a limit of one or more, whatever the other autodiscovery fields
are. -/
theorem Validate_autodiscover_limit (c : Config) (logs : LogsConfig)
    (cfg : AutodiscoverConfig) (hr : c.Region ≠ "") (he : endpointOK c)
    (hl : c.Logs = some logs) (hm : 0 < logs.MaxEventsPerRequest)
    (hp : time.Second ≤ logs.PollInterval)
    (ha : logs.Groups.AutodiscoverConfig = some cfg) (hn : logs.Groups.NamedConfigs = []) :
    (cfg.Limit ≤ 0 → c.Validate = some Error.errInvalidAutodiscoverLimit)
    ∧ (1 ≤ cfg.Limit → c.Validate = none) := by
  rw [Validate_of_logs c logs hr he hl hm hp]
  constructor
  · intro h
    simp [GroupConfig.validate, validateAutodiscover, ha, hn, h]
  · intro h
    have h2 : ¬ cfg.Limit ≤ 0 := by omega
    simp [GroupConfig.validate, validateAutodiscover, ha, hn, h2]

/-- Witness of C8: limit 0 is refused, limit 1 is accepted. -/
theorem Validate_autodiscover_limit_witness :
    (mkConfig "us-east-1" "" (some (mkLogs time.Minute 1000 (some (autodiscover 0)) []))).Validate
      = some Error.errInvalidAutodiscoverLimit
    ∧ (mkConfig "us-east-1" "" (some (mkLogs time.Minute 1000 (some (autodiscover 1)) []))).Validate
      = none :=
  ⟨(Validate_autodiscover_limit _ (mkLogs time.Minute 1000 (some (autodiscover 0)) [])
      (autodiscover 0) (by decide) (by decide) rfl (by decide) (by decide) rfl rfl).1
      (by decide),
    (Validate_autodiscover_limit _ (mkLogs time.Minute 1000 (some (autodiscover 1)) [])
      (autodiscover 1) (by decide) (by decide) rfl (by decide) (by decide) rfl rfl).2
      (by decide)⟩

/-- C9: with a non-empty `Region`, a non-empty `IMDSEndpoint` that `url.ParseRequestURI`
rejects makes `Validate` return the error wrapping the parse error, whatever `Logs` is; an
empty or accepted `IMDSEndpoint` makes `Validate` return exactly the result of the logs
validation. The parser rejects "not a uri" and accepts "http://169.254.169.254". -/
theorem Validate_imds_endpoint :
    (∀ (c : Config) (err : url.Error), c.Region ≠ "" → c.IMDSEndpoint ≠ "" →
        url.ParseRequestURI c.IMDSEndpoint = some err →
        c.Validate = some (Error.parseURIError err))
    ∧ (∀ c : Config, c.Region ≠ "" →
        (c.IMDSEndpoint = "" ∨ url.ParseRequestURI c.IMDSEndpoint = none) →
        c.Validate = c.validateLogsConfig)
    ∧ url.ParseRequestURI "not a uri"
        = some { Op := "parse", URL := "not a uri", Err := url.ParseErr.invalidURIForRequest }
    ∧ url.ParseRequestURI "http://169.254.169.254" = none := by
  refine ⟨?_, ?_, by decide, by decide⟩
  · intro c err hr he hu
    simp [Config.Validate, hr, he, hu]
  · intro c hr he
    exact Validate_of_region_endpoint c hr he

/-- Witness of C9: "not a uri" is reported with no logs configured, and with
"http://169.254.169.254" the result is that of the logs validation. -/
theorem Validate_imds_endpoint_witness :
    (mkConfig "us-east-1" "not a uri" none).Validate
      = some (Error.parseURIError
          { Op := "parse", URL := "not a uri", Err := url.ParseErr.invalidURIForRequest })
    ∧ (mkConfig "us-east-1" "http://169.254.169.254" none).Validate
      = (mkConfig "us-east-1" "http://169.254.169.254" none).validateLogsConfig :=
  ⟨Validate_imds_endpoint.1 (mkConfig "us-east-1" "not a uri" none) _
      (by decide) (by decide) (by decide),
    Validate_imds_endpoint.2.1 (mkConfig "us-east-1" "http://169.254.169.254" none)
      (by decide) (Or.inr (by decide))⟩

/-- C10 as stated fails: "/latest" has no scheme, yet `url.ParseRequestURI` accepts it and
`Validate` accepts a `Config` that carries it as `IMDSEndpoint`. -/
theorem Validate_scheme_less_endpoint_counterexample :
    url.hasScheme "/latest" = false
    ∧ url.ParseRequestURI "/latest" = none
    ∧ (mkConfig "us-east-1" "/latest"
        (some (mkLogs time.Minute 1000 (some (autodiscover 50)) []))).Validate = none := by
  decide

/-- C10, amended: every non-empty `IMDSEndpoint` that `Validate` accepts is accepted by
`url.ParseRequestURI`, and is "*", or starts with a scheme, or is an absolute path starting
with a slash; the scheme-less absolute path "/latest" passes the endpoint check, the
result of `Validate` then being that of the logs validation. -/
theorem Validate_accepted_endpoint :
    (∀ c : Config, c.Validate = none → c.IMDSEndpoint ≠ "" →
      url.ParseRequestURI c.IMDSEndpoint = none
      ∧ (bytes c.IMDSEndpoint = bytes "*"
        ∨ url.hasScheme c.IMDSEndpoint = true
        ∨ url.isAbsolutePath c.IMDSEndpoint = true))
    ∧ (∀ c : Config, c.Region ≠ "" → c.IMDSEndpoint = "/latest" →
        c.Validate = c.validateLogsConfig) := by
  constructor
  · intro c h he
    have hu : url.ParseRequestURI c.IMDSEndpoint = none := by
      unfold Config.Validate at h
      split_ifs at h with hr
      cases hp : url.ParseRequestURI c.IMDSEndpoint with
      | none => rfl
      | some err => rw [hp] at h; simp at h
    refine ⟨hu, ?_⟩
    have hp : url.parse (bytes c.IMDSEndpoint) true = none := by
      unfold url.ParseRequestURI at hu
      split at hu
      · simp at hu
      · assumption
    rcases parse_viaRequest_accepts _ hp with h1 | ⟨scheme, rest, h2, h3⟩ | h4
    · exact Or.inl h1
    · right; left
      unfold url.hasScheme
      rw [h2]
      cases scheme with
      | nil => exact absurd rfl h3
      | cons x xs => rfl
    · right; right
      exact h4
  · intro c hr he
    refine Validate_of_region_endpoint c hr (Or.inr ?_)
    rw [he]
    decide

/-- Witness of C10, amended: an accepted `Config` with the endpoint "/latest". -/
theorem Validate_accepted_endpoint_witness :
    (url.ParseRequestURI "/latest" = none
      ∧ (bytes "/latest" = bytes "*"
        ∨ url.hasScheme "/latest" = true
        ∨ url.isAbsolutePath "/latest" = true))
    ∧ (mkConfig "us-east-1" "/latest" none).Validate
        = (mkConfig "us-east-1" "/latest" none).validateLogsConfig :=
  ⟨Validate_accepted_endpoint.1
      (mkConfig "us-east-1" "/latest"
        (some (mkLogs time.Minute 1000 (some (autodiscover 50)) [])))
      (by decide) (by decide),
    Validate_accepted_endpoint.2 (mkConfig "us-east-1" "/latest" none) (by decide) rfl⟩

/-- C11: when decoding succeeds and leaves `Logs` present, and `logs::groups::named` is set
while `logs::groups::autodiscover` is not, `Unmarshal` returns no error and leaves
`Logs.Groups.AutodiscoverConfig` nil, whatever decoding had left there. -/
theorem Unmarshal_named_clears_autodiscover (c decoded : Config) (parser : confmap.Conf)
    (logs : LogsConfig) (hd : parser.Unmarshal c = (decoded, none))
    (hl : decoded.Logs = some logs) (hn : parser.IsSet "logs::groups::named" = true)
    (ha : parser.IsSet "logs::groups::autodiscover" = false) :
    ∃ result logs', c.Unmarshal (some parser) = UnmarshalResult.returned result none
      ∧ result.Logs = some logs' ∧ logs'.Groups.AutodiscoverConfig = none := by
  rw [Unmarshal_of_decoded c decoded parser hd, normalize_of_rule decoded parser logs hl hn ha]
  exact ⟨_, _, rfl, rfl, rfl⟩

/-- Witness of C11: decoding left an autodiscovery block next to a named group. -/
theorem Unmarshal_named_clears_autodiscover_witness :
    ∃ result logs',
      (mkConfig "us-east-1" "" none).Unmarshal
          (some (mkConf
            (mkConfig "us-east-1" ""
              (some (mkLogs time.Minute 1000 (some (autodiscover 50)) [("group", allStreams)])))
            none ["logs", "logs::groups", "logs::groups::named"]))
        = UnmarshalResult.returned result none
      ∧ result.Logs = some logs' ∧ logs'.Groups.AutodiscoverConfig = none :=
  Unmarshal_named_clears_autodiscover (mkConfig "us-east-1" "" none)
    (mkConfig "us-east-1" ""
      (some (mkLogs time.Minute 1000 (some (autodiscover 50)) [("group", allStreams)])))
    (mkConf
      (mkConfig "us-east-1" ""
        (some (mkLogs time.Minute 1000 (some (autodiscover 50)) [("group", allStreams)])))
      none ["logs", "logs::groups", "logs::groups::named"])
    (mkLogs time.Minute 1000 (some (autodiscover 50)) [("group", allStreams)])
    rfl rfl (by decide) (by decide)

/-- C12: when decoding succeeds with a non-empty `Region`, an acceptable `IMDSEndpoint`,
`Logs` present, a positive `MaxEventsPerRequest` and a `PollInterval` of at least one
second, and `logs::groups::named` is set while `logs::groups::autodiscover` is not, then
`Unmarshal` returns no error and `Validate` accepts the `Config` it leaves, whatever
`AutodiscoverConfig` decoding had left. -/
theorem Unmarshal_then_Validate_named (c decoded : Config) (parser : confmap.Conf)
    (logs : LogsConfig) (hd : parser.Unmarshal c = (decoded, none))
    (hr : decoded.Region ≠ "") (he : endpointOK decoded)
    (hl : decoded.Logs = some logs) (hm : 0 < logs.MaxEventsPerRequest)
    (hp : time.Second ≤ logs.PollInterval)
    (hn : parser.IsSet "logs::groups::named" = true)
    (ha : parser.IsSet "logs::groups::autodiscover" = false) :
    ∃ result, c.Unmarshal (some parser) = UnmarshalResult.returned result none
      ∧ result.Validate = none := by
  rw [Unmarshal_of_decoded c decoded parser hd, normalize_of_rule decoded parser logs hl hn ha]
  refine ⟨_, rfl, ?_⟩
  have h := Validate_of_logs
    { decoded with
      Logs := some { logs with Groups := { logs.Groups with AutodiscoverConfig := none } } }
    { logs with Groups := { logs.Groups with AutodiscoverConfig := none } } hr he rfl hm hp
  exact h.trans (by simp [GroupConfig.validate])

/-- Witness of C12: decoding left an autodiscovery block with limit 0 next to a named
group; the decoded `Config` fails validation, the normalized one passes. -/
theorem Unmarshal_then_Validate_named_witness :
    (mkConfig "us-east-1" ""
        (some (mkLogs time.Second 1 (some (autodiscover 0)) [("group", allStreams)]))).Validate
      = some Error.errAutodiscoverAndNamedConfigured
    ∧ ∃ result,
      (mkConfig "" "" none).Unmarshal
          (some (mkConf
            (mkConfig "us-east-1" ""
              (some (mkLogs time.Second 1 (some (autodiscover 0)) [("group", allStreams)])))
            none ["logs::groups::named"]))
        = UnmarshalResult.returned result none
      ∧ result.Validate = none :=
  ⟨by decide,
    Unmarshal_then_Validate_named (mkConfig "" "" none)
      (mkConfig "us-east-1" ""
        (some (mkLogs time.Second 1 (some (autodiscover 0)) [("group", allStreams)])))
      (mkConf
        (mkConfig "us-east-1" ""
          (some (mkLogs time.Second 1 (some (autodiscover 0)) [("group", allStreams)])))
        none ["logs::groups::named"])
      (mkLogs time.Second 1 (some (autodiscover 0)) [("group", allStreams)])
      rfl (by decide) (by decide) rfl (by decide) (by decide) (by decide) (by decide)⟩

/-- C13: the normalization step of `Unmarshal` is idempotent for a fixed key-presence
record: applied to a `Config` it has produced it returns that `Config` unchanged, so
normalizing twice is normalizing once; it produces a `Config` whenever `Logs` is
present. -/
theorem normalize_idempotent (parser : confmap.Conf) (c : Config) :
    (c.normalize parser).bind (fun normalized => normalized.normalize parser)
      = c.normalize parser
    ∧ (∀ normalized, c.normalize parser = some normalized →
        normalized.normalize parser = some normalized)
    ∧ (c.Logs ≠ none → ∃ normalized, c.normalize parser = some normalized) := by
  have key : ∀ normalized, c.normalize parser = some normalized →
      normalized.normalize parser = some normalized := by
    intro normalized h
    unfold Config.normalize at h ⊢
    split_ifs at h ⊢ with hrule
    · cases hl : c.Logs with
      | none => rw [hl] at h; simp at h
      | some logs =>
        rw [hl] at h
        simp only [Option.some.injEq] at h
        subst h
        rfl
    · rfl
  refine ⟨?_, key, ?_⟩
  · cases h : c.normalize parser with
    | none => rfl
    | some normalized => exact key normalized h
  · intro hl
    unfold Config.normalize
    split_ifs
    · cases h : c.Logs with
      | none => exact absurd h hl
      | some logs => exact ⟨_, rfl⟩
    · exact ⟨_, rfl⟩

/-- Witness of C13: normalizing the `Config` that normalization produced from an
autodiscovery block next to a named group. -/
theorem normalize_idempotent_witness :
    (mkConfig "us-east-1" ""
        (some (mkLogs time.Minute 1000 none [("group", allStreams)]))).normalize
        (mkConf (mkConfig "" "" none) none ["logs::groups::named"])
      = some (mkConfig "us-east-1" ""
          (some (mkLogs time.Minute 1000 none [("group", allStreams)])))
    ∧ ∃ normalized,
      (mkConfig "us-east-1" ""
        (some (mkLogs time.Minute 1000 (some (autodiscover 50)) [("group", allStreams)]))).normalize
        (mkConf (mkConfig "" "" none) none ["logs::groups::named"]) = some normalized :=
  ⟨(normalize_idempotent (mkConf (mkConfig "" "" none) none ["logs::groups::named"])
      (mkConfig "us-east-1" ""
        (some (mkLogs time.Minute 1000 (some (autodiscover 50)) [("group", allStreams)])))).2.1
      (mkConfig "us-east-1" ""
        (some (mkLogs time.Minute 1000 none [("group", allStreams)])))
      (by decide),
    (normalize_idempotent (mkConf (mkConfig "" "" none) none ["logs::groups::named"])
      (mkConfig "us-east-1" ""
        (some (mkLogs time.Minute 1000 (some (autodiscover 50)) [("group", allStreams)])))).2.2
      (by decide)⟩

/-- C14 as stated fails: with a nil `componentParser` `Unmarshal` fails with the error of
empty message although no decoding was attempted, so not every failure is a decoding
failure. -/
theorem Unmarshal_nil_parser_counterexample :
    (mkConfig "us-east-1" "" (some (mkLogs time.Minute 1000 (some (autodiscover 50)) []))).Unmarshal
        none
      = UnmarshalResult.returned
          (mkConfig "us-east-1" "" (some (mkLogs time.Minute 1000 (some (autodiscover 50)) [])))
          (some UnmarshalError.emptyError) := by
  decide

/-- C14, amended: `Unmarshal` returns an error in two cases only, a nil `componentParser`
(the error of empty message, `*c` untouched) and a decoding error (that same error, `*c` as
decoding left it, the normalization rule not applied); when decoding succeeds, and `Logs`
is present or the rule does not apply, it returns no error, whether or not `Validate`
accepts the result. -/
theorem Unmarshal_errors :
    (∀ c : Config, c.Unmarshal none = UnmarshalResult.returned c (some UnmarshalError.emptyError))
    ∧ (∀ (c decoded : Config) (parser : confmap.Conf) (err : confmap.DecodeError),
        parser.Unmarshal c = (decoded, some err) →
        c.Unmarshal (some parser)
          = UnmarshalResult.returned decoded (some (UnmarshalError.decodeError err)))
    ∧ (∀ (c decoded : Config) (parser : confmap.Conf),
        parser.Unmarshal c = (decoded, none) →
        (decoded.Logs ≠ none ∨ parser.IsSet "logs::groups::autodiscover" = true
          ∨ parser.IsSet "logs::groups::named" = false) →
        ∃ result, c.Unmarshal (some parser) = UnmarshalResult.returned result none)
    ∧ (∀ (c result : Config) (componentParser : Option confmap.Conf) (err : UnmarshalError),
        c.Unmarshal componentParser = UnmarshalResult.returned result (some err) →
        (componentParser = none ∧ err = UnmarshalError.emptyError)
        ∨ ∃ parser derr, componentParser = some parser
            ∧ (parser.Unmarshal c).2 = some derr ∧ err = UnmarshalError.decodeError derr) := by
  refine ⟨fun c => rfl, ?_, ?_, ?_⟩
  · intro c decoded parser err hd
    simp [Config.Unmarshal, hd]
  · intro c decoded parser hd h
    rw [Unmarshal_of_decoded c decoded parser hd]
    rcases h with h | h | h
    · cases hl : decoded.Logs with
      | none => exact absurd hl h
      | some logs =>
        by_cases hrule : parser.IsSet "logs::groups::named" = true
            ∧ parser.IsSet "logs::groups::autodiscover" = false
        · rw [normalize_of_rule decoded parser logs hl hrule.1 hrule.2]
          exact ⟨_, rfl⟩
        · have : parser.IsSet "logs::groups::autodiscover" = true
              ∨ parser.IsSet "logs::groups::named" = false := by
            by_cases hn : parser.IsSet "logs::groups::named" = true
            · left
              by_contra ha
              exact hrule ⟨hn, by simpa using ha⟩
            · right; simpa using hn
          rw [normalize_of_no_rule decoded parser this]
          exact ⟨_, rfl⟩
    · rw [normalize_of_no_rule decoded parser (Or.inl h)]
      exact ⟨_, rfl⟩
    · rw [normalize_of_no_rule decoded parser (Or.inr h)]
      exact ⟨_, rfl⟩
  · intro c result componentParser err h
    cases componentParser with
    | none =>
      left
      simp only [Config.Unmarshal, UnmarshalResult.returned.injEq, Option.some.injEq] at h
      exact ⟨rfl, h.2.symm⟩
    | some parser =>
      right
      rcases hd : parser.Unmarshal c with ⟨decoded, _ | derr⟩
      · rw [Unmarshal_of_decoded c decoded parser hd] at h
        split at h <;> simp at h
      · simp only [Config.Unmarshal, hd, UnmarshalResult.returned.injEq,
          Option.some.injEq] at h
        exact ⟨parser, derr, rfl, by rw [hd], h.2.symm⟩

/-- Witness of C14, amended: a decoding error is passed on with the autodiscovery block
left in place although only `named` is set; a successful decoding of a `Config` that
`Validate` refuses returns no error. -/
theorem Unmarshal_errors_witness :
    (mkConfig "" "" none).Unmarshal
        (some (mkConf
          (mkConfig "us-east-1" ""
            (some (mkLogs time.Minute 1000 (some (autodiscover 50)) [("group", allStreams)])))
          (some { msg := "has invalid keys: groupz" }) ["logs::groups::named"]))
      = UnmarshalResult.returned
          (mkConfig "us-east-1" ""
            (some (mkLogs time.Minute 1000 (some (autodiscover 50)) [("group", allStreams)])))
          (some (UnmarshalError.decodeError { msg := "has invalid keys: groupz" }))
    ∧ (mkConfig "" "" (some (mkLogs 0 0 none []))).Validate ≠ none
    ∧ ∃ result,
      (mkConfig "" "" none).Unmarshal
          (some (mkConf (mkConfig "" "" (some (mkLogs 0 0 none []))) none ["logs"]))
        = UnmarshalResult.returned result none :=
  ⟨Unmarshal_errors.2.1 (mkConfig "" "" none) _
      (mkConf
        (mkConfig "us-east-1" ""
          (some (mkLogs time.Minute 1000 (some (autodiscover 50)) [("group", allStreams)])))
        (some { msg := "has invalid keys: groupz" }) ["logs::groups::named"])
      { msg := "has invalid keys: groupz" } rfl,
    by decide,
    Unmarshal_errors.2.2.1 (mkConfig "" "" none) (mkConfig "" "" (some (mkLogs 0 0 none [])))
      (mkConf (mkConfig "" "" (some (mkLogs 0 0 none []))) none ["logs"]) rfl
      (Or.inl (by decide))⟩

/-- C15: frame of `Unmarshal` after a successful decoding. Whenever it returns, `Region`,
`Profile`, `IMDSEndpoint`, the presence of `Logs`, `Logs.PollInterval`,
`Logs.MaxEventsPerRequest` and `Logs.Groups.NamedConfigs` are as decoding left them; when
`logs::groups::autodiscover` is set or `logs::groups::named` is not set it returns with
the whole decoded `Config`; and it does return whenever `Logs` is present. -/
theorem Unmarshal_frame (c decoded : Config) (parser : confmap.Conf)
    (hd : parser.Unmarshal c = (decoded, none)) :
    (∀ result err, c.Unmarshal (some parser) = UnmarshalResult.returned result err →
      result.Region = decoded.Region ∧ result.Profile = decoded.Profile
      ∧ result.IMDSEndpoint = decoded.IMDSEndpoint
      ∧ result.Logs.isSome = decoded.Logs.isSome
      ∧ result.Logs.map (fun logs => logs.PollInterval)
          = decoded.Logs.map (fun logs => logs.PollInterval)
      ∧ result.Logs.map (fun logs => logs.MaxEventsPerRequest)
          = decoded.Logs.map (fun logs => logs.MaxEventsPerRequest)
      ∧ result.Logs.map (fun logs => logs.Groups.NamedConfigs)
          = decoded.Logs.map (fun logs => logs.Groups.NamedConfigs))
    ∧ (parser.IsSet "logs::groups::autodiscover" = true
        ∨ parser.IsSet "logs::groups::named" = false →
        c.Unmarshal (some parser) = UnmarshalResult.returned decoded none)
    ∧ (decoded.Logs ≠ none →
        ∃ result, c.Unmarshal (some parser) = UnmarshalResult.returned result none) := by
  rw [Unmarshal_of_decoded c decoded parser hd]
  refine ⟨?_, ?_, ?_⟩
  · intro result err h
    unfold Config.normalize at h
    split_ifs at h with hrule
    · cases hl : decoded.Logs with
      | none => rw [hl] at h; simp at h
      | some logs =>
        rw [hl] at h
        simp only [UnmarshalResult.returned.injEq] at h
        obtain ⟨h1, _⟩ := h
        subst h1
        simp
    · simp only [UnmarshalResult.returned.injEq] at h
      obtain ⟨h1, _⟩ := h
      subst h1
      simp
  · intro h
    rw [normalize_of_no_rule decoded parser h]
  · intro hl
    unfold Config.normalize
    split_ifs
    · cases h : decoded.Logs with
      | none => exact absurd h hl
      | some logs => exact ⟨_, rfl⟩
    · exact ⟨_, rfl⟩

/-- Witness of C15: with only `named` set the autodiscovery block is the one field that
changes; with `autodiscover` set as well the decoded `Config` is returned as it is. -/
theorem Unmarshal_frame_witness :
    (mkConfig "" "" none).Unmarshal
        (some (mkConf
          (mkConfig "us-east-1" "/latest"
            (some (mkLogs time.Minute 1000 (some (autodiscover 50)) [("group", allStreams)])))
          none ["logs::groups::named", "logs::groups::autodiscover"]))
      = UnmarshalResult.returned
          (mkConfig "us-east-1" "/latest"
            (some (mkLogs time.Minute 1000 (some (autodiscover 50)) [("group", allStreams)])))
          none
    ∧ ∃ result,
      (mkConfig "" "" none).Unmarshal
          (some (mkConf
            (mkConfig "us-east-1" "/latest"
              (some (mkLogs time.Minute 1000 (some (autodiscover 50)) [("group", allStreams)])))
            none ["logs::groups::named"]))
        = UnmarshalResult.returned result none :=
  ⟨(Unmarshal_frame (mkConfig "" "" none)
      (mkConfig "us-east-1" "/latest"
        (some (mkLogs time.Minute 1000 (some (autodiscover 50)) [("group", allStreams)])))
      (mkConf
        (mkConfig "us-east-1" "/latest"
          (some (mkLogs time.Minute 1000 (some (autodiscover 50)) [("group", allStreams)])))
        none ["logs::groups::named", "logs::groups::autodiscover"]) rfl).2.1
      (Or.inl (by decide)),
    (Unmarshal_frame (mkConfig "" "" none)
      (mkConfig "us-east-1" "/latest"
        (some (mkLogs time.Minute 1000 (some (autodiscover 50)) [("group", allStreams)])))
      (mkConf
        (mkConfig "us-east-1" "/latest"
          (some (mkLogs time.Minute 1000 (some (autodiscover 50)) [("group", allStreams)])))
        none ["logs::groups::named"]) rfl).2.2
      (by decide)⟩

/-- C16, the code at the boundary: a `PollInterval` of exactly one second, in a `Config`
that passes every other check, is accepted by `Validate`, although the message of
`errInvalidPollInterval` asks for a duration greater than one second. -/
theorem Validate_one_second_accepted :
    time.Second = 1000000000
    ∧ (mkConfig "us-east-1" ""
        (some (mkLogs time.Second 1000 (some (autodiscover 50)) []))).Validate = none
    ∧ (mkConfig "us-east-1" ""
        (some (mkLogs time.Second 1000 (some (autodiscover 50)) []))).Validate
      ≠ some Error.errInvalidPollInterval := by
  decide

/-- C17: `defaultPollInterval` is one minute (60,000,000,000 ns), `defaultEventLimit` is
1000 and `defaultLogGroupLimit` is 50, and `Validate` accepts every `Config` with a
non-empty `Region`, an empty `IMDSEndpoint`, these defaults in `Logs`, and an autodiscovery
block with the default limit and no named groups. -/
theorem Validate_defaults :
    defaultPollInterval = time.Minute ∧ defaultPollInterval = 60000000000
    ∧ defaultEventLimit = 1000 ∧ defaultLogGroupLimit = 50
    ∧ (∀ (c : Config) (logs : LogsConfig) (cfg : AutodiscoverConfig),
        c.Region ≠ "" → c.IMDSEndpoint = "" → c.Logs = some logs →
        logs.PollInterval = defaultPollInterval →
        logs.MaxEventsPerRequest = defaultEventLimit →
        logs.Groups.AutodiscoverConfig = some cfg → cfg.Limit = defaultLogGroupLimit →
        logs.Groups.NamedConfigs = [] →
        c.Validate = none) := by
  refine ⟨rfl, by decide, rfl, rfl, ?_⟩
  intro c logs cfg hr he hl hp hm ha hlim hn
  have hp2 : time.Second ≤ logs.PollInterval := by rw [hp]; decide
  have hm2 : 0 < logs.MaxEventsPerRequest := by rw [hm]; decide
  rw [Validate_of_logs c logs hr (Or.inl he) hl hm2 hp2]
  have hlim2 : ¬ cfg.Limit ≤ 0 := by rw [hlim]; decide
  simp [GroupConfig.validate, validateAutodiscover, ha, hn, hlim2]

/-- Witness of C17: the default values in a `Config` for region us-east-1. -/
theorem Validate_defaults_witness :
    (mkConfig "us-east-1" ""
      (some (mkLogs defaultPollInterval defaultEventLimit
        (some (autodiscover defaultLogGroupLimit)) []))).Validate = none :=
  Validate_defaults.2.2.2.2
    (mkConfig "us-east-1" ""
      (some (mkLogs defaultPollInterval defaultEventLimit
        (some (autodiscover defaultLogGroupLimit)) [])))
    (mkLogs defaultPollInterval defaultEventLimit (some (autodiscover defaultLogGroupLimit)) [])
    (autodiscover defaultLogGroupLimit) (by decide) rfl rfl rfl rfl rfl rfl rfl

/-- C18: the result of `Validate` depends only on the fields it checks. Two `Config`s that
agree on `Region`, `IMDSEndpoint`, the presence of `Logs`, `PollInterval`,
`MaxEventsPerRequest`, the presence of `AutodiscoverConfig`, its `Limit`, and on whether
`NamedConfigs` is empty have the same result, whatever `Profile`, `Prefix`,
`IncludeLinkedAccounts`, `Streams` and the entries of `NamedConfigs` are. -/
theorem Validate_depends_on_validatedFields (c₁ c₂ : Config)
    (h : validatedFields c₁ = validatedFields c₂) : c₁.Validate = c₂.Validate := by
  obtain ⟨r₁, p₁, e₁, l₁⟩ := c₁
  obtain ⟨r₂, p₂, e₂, l₂⟩ := c₂
  simp only [validatedFields, Prod.mk.injEq] at h
  obtain ⟨hr, he, hl⟩ := h
  subst hr he
  rcases l₁ with _ | ⟨poll₁, ev₁, ⟨a₁, n₁⟩⟩ <;> rcases l₂ with _ | ⟨poll₂, ev₂, ⟨a₂, n₂⟩⟩ <;>
    simp at hl
  · simp [Config.Validate, Config.validateLogsConfig]
  · obtain ⟨hp, hev, ha, hn⟩ := hl
    subst hp hev
    rcases a₁ with _ | cfg₁ <;> rcases a₂ with _ | cfg₂ <;> simp at ha <;>
      rcases n₁ with _ | ⟨x₁, xs₁⟩ <;> rcases n₂ with _ | ⟨x₂, xs₂⟩ <;> simp at hn <;>
      simp [Config.Validate, Config.validateLogsConfig, GroupConfig.validate,
        validateAutodiscover, ha]

/-- Witness of C18: two `Config`s that differ in `Profile`, in every autodiscovery field but
`Limit`, and in their stream filters. -/
theorem Validate_depends_on_validatedFields_witness :
    ({ Region := "us-east-1"
       Profile := "default"
       IMDSEndpoint := "not a uri"
       Logs := some (mkLogs time.Minute 1000
         (some { Prefix := "/aws/eks/"
                 Limit := 0
                 IncludeLinkedAccounts := true
                 Streams := { Prefixes := [some "kube"], Names := [none] } }) []) } : Config).Validate
      = ({ Region := "us-east-1"
           Profile := "other"
           IMDSEndpoint := "not a uri"
           Logs := some (mkLogs time.Minute 1000
             (some { Prefix := ""
                     Limit := 0
                     IncludeLinkedAccounts := false
                     Streams := allStreams }) []) } : Config).Validate :=
  Validate_depends_on_validatedFields _ _ rfl

end awscloudwatchreceiver
